import Mathlib

/-!
Verification development for the OpenProject → Google Calendar task
synchronization script (`synchronization.py`, driven by `main.py`).

The Python code is shallowly embedded below.  Python strings are modeled as
Lean `String`s; the handful of `str` methods the script uses (`split` with a
one-character separator, `strip`, slicing `[:-1]`, `int(...)`, `str(...)`)
are implemented here on the underlying character lists with Python's
semantics, so that theorems about them can be proved by induction and
evaluated on concrete inputs.  Raw JSON records are modeled as typed
structures holding exactly the fields the script reads; fallible Python
expressions (out-of-range list indices, `int` conversion errors,
`datetime` range validation) become `Except String` values whose `error`
case corresponds to an uncaught-at-that-point Python exception.
-/

namespace CalSync

/-- Python `s.split(sep)` on the character list, single-character separator.
`splitCh sep []` is `[[]]`, matching Python's `"".split(sep) == ['']`. -/
def splitCh (sep : Char) : List Char → List (List Char)
  | [] => [[]]
  | c :: cs =>
    match splitCh sep cs with
    | [] => [[c]]
    | g :: gs => if c = sep then [] :: g :: gs else (c :: g) :: gs

/-- Python `s.split(sep)` for a one-character separator, as used by the
script (`'\n'`, `':'`, `'='`, `'/'`, `'-'`, `'T'`). -/
def pySplit (sep : Char) (s : String) : List String :=
  (splitCh sep s.data).map String.mk

/-- Python `s.strip()` (whitespace stripped from both ends). -/
def pyStrip (s : String) : String :=
  String.mk (((s.data.dropWhile Char.isWhitespace).reverse.dropWhile
    Char.isWhitespace).reverse)

/-- Python slice `s[:-1]` (drop the final character; empty stays empty). -/
def pyDropLast (s : String) : String :=
  String.mk s.data.dropLast

/-- Python truthiness of an optional string field (`if elem[...]:`):
`None` and the empty string are falsy. -/
def pyTruthy : Option String → Bool
  | none => false
  | some s => s ≠ ""

/-- Decimal digits, most significant first, with explicit fuel so the
definition is structurally recursive (and hence kernel-reducible). -/
def natReprAux : Nat → Nat → List Char
  | 0, _ => []
  | fuel + 1, n =>
    if n < 10 then [Nat.digitChar n]
    else natReprAux fuel (n / 10) ++ [Nat.digitChar (n % 10)]

/-- Decimal digits of a natural number, most significant first
(the characters of Python `str(n)` for `n ≥ 0`). -/
def natRepr (n : Nat) : List Char := natReprAux (n + 1) n

/-- Python `str(i)` for an `int` value. -/
def pyStr (i : Int) : String :=
  if i < 0 then String.mk ('-' :: natRepr i.natAbs) else String.mk (natRepr i.natAbs)

/-- Value of a decimal digit character, `none` otherwise. -/
def digitVal (c : Char) : Option Nat :=
  if 48 ≤ c.toNat ∧ c.toNat ≤ 57 then some (c.toNat - 48) else none

/-- Accumulate a decimal numeral left to right. -/
def digitsToNat (acc : Nat) : List Char → Option Nat
  | [] => some acc
  | c :: cs =>
    match digitVal c with
    | none => none
    | some d => digitsToNat (acc * 10 + d) cs

/-- Parse a (stripped) character list the way Python `int(...)` does:
an optional sign followed by at least one decimal digit.  (Python's
acceptance of underscores between digits is not modeled; nothing in the
repository feeds such literals to `int`.) -/
def pyIntCore : List Char → Option Int
  | [] => none
  | c :: ds =>
    if c = '-' then
      if ds = [] then none else (digitsToNat 0 ds).map (fun n => -(n : Int))
    else if c = '+' then
      if ds = [] then none else (digitsToNat 0 ds).map (fun n => (n : Int))
    else (digitsToNat 0 (c :: ds)).map (fun n => (n : Int))

/-- Python `int(s)`: strips whitespace, then parses a signed decimal
numeral; raises `ValueError` otherwise. -/
def pyInt (s : String) : Except String Int :=
  match pyIntCore (pyStrip s).data with
  | some i => Except.ok i
  | none => Except.error ("ValueError: invalid literal for int() with base 10: " ++ s)

/-- Python `l[k]` for `k ≥ 0`: `IndexError` when out of range. -/
def pyIndex (l : List α) (k : Nat) : Except String α :=
  match l[k]? with
  | some a => Except.ok a
  | none => Except.error "IndexError: list index out of range"

/-- Python `l[-k]` for `k ≥ 1` (`l[-2]` is `pyIndexFromEnd l 2`):
`IndexError` when out of range. -/
def pyIndexFromEnd (l : List α) (k : Nat) : Except String α :=
  match l.reverse[k - 1]? with
  | some a => Except.ok a
  | none => Except.error "IndexError: list index out of range"

/-! ## Data model

Typed images of the JSON records the script reads.  A raw work package
carries exactly the fields `parse_workpackages` accesses
(`elem['id']`, `elem['subject']`, `elem['description']['raw']`,
`elem['description']['html']`, `elem['_links']['parent']`,
`elem['_links']['assignee']`, `elem['dueDate']`, `elem['createdAt']`,
`elem['updatedAt']`); a raw calendar event carries the fields
`parse_events` accesses (`elem['id']`, `elem['summary']`,
`elem['description']`, `elem['end']['dateTime']`). -/

structure RawWP where
  id : Int
  subject : String
  description_raw : Option String
  description_html : String
  parent_href : Option String
  parent_title : String
  assignee_href : Option String
  assignee_title : String
  dueDate : Option String
  createdAt : String
  updatedAt : String
  deriving Repr, DecidableEq

/-- The structured work package built by `parse_workpackages` (the dict
`tmp` in the source). -/
structure ParsedWP where
  wp_id : Int
  subject : String
  description : String
  parent : String
  assignee : String
  due_date : String
  due_hour : String
  updated_at : String
  deriving Repr, DecidableEq

structure RawEvent where
  id : String
  summary : String
  description : String
  end_dateTime : String
  deriving Repr, DecidableEq

/-- The structured event built by `parse_events` (the dict `tmp` in the
source).  Note: `wp_id` is the raw first `':'`-segment of the title, a
string; only the dictionary key is converted with `int(...)`. -/
structure ParsedEvent where
  event_id : String
  wp_id : String
  subject : String
  assignee : String
  updated_at : String
  due_date : String
  due_hour : String
  deriving Repr, DecidableEq

/-- Python dict assignment `m[k] = v`: replace an existing binding in
place, otherwise append. -/
def dinsert (k : Int) (v : α) : List (Int × α) → List (Int × α)
  | [] => [(k, v)]
  | (k', v') :: rest =>
    if k' = k then (k, v) :: rest else (k', v') :: dinsert k v rest

/-- Python dict lookup `m[k]` restricted to `some`/`none`. -/
def dlookup (k : Int) : List (Int × α) → Option α
  | [] => none
  | (k', v) :: rest => if k' = k then some v else dlookup k rest

/-- The key list of a dict. -/
def keyList (m : List (Int × α)) : List Int := m.map Prod.fst

/-! ## Task normalization: `parse_workpackages` -/

/-- Loop body of `parse_workpackages` for one element.  `none` means the
package is skipped (description `None`, or first description line
`"!!!"`).  In this typed embedding the `try` block cannot raise: every
JSON field access is total by typing and the string operations used
(`split`, `strip`, indexing `[0]`/`[-1]` of a `split` result, slicing)
are total in Python, so the `except` branch is dead and no error pair is
produced. -/
def normalize_wp (elem : RawWP) : Option (Int × ParsedWP) :=
  match elem.description_raw with
  | none => none
  | some raw =>
    if (pySplit '\n' raw).headD "" = "!!!" then none
    else
      some (elem.id,
        { wp_id := elem.id
          subject := pyStrip elem.subject
          description := elem.description_html
          parent :=
            if pyTruthy elem.parent_href then
              ((pySplit '/' (elem.parent_href.getD "")).getLastD "") ++ ":"
                ++ elem.parent_title
            else "No parent"
          assignee :=
            if pyTruthy elem.assignee_href then elem.assignee_title
            else "Not assigned to anyone"
          due_date :=
            if pyTruthy elem.dueDate then elem.dueDate.getD ""
            else (pySplit 'T' elem.createdAt).headD ""
          due_hour :=
            if pyTruthy elem.dueDate then
              pyStrip ((pySplit '='
                ((pySplit '\n' raw).getLastD "")).getLastD "")
            else pyDropLast ((pySplit 'T' elem.createdAt).getLastD "")
          updated_at := elem.updatedAt })

/-- One iteration of the `parse_workpackages` loop on the accumulated
`(parsed_wps, err)` state. -/
def parse_wps_step (acc : List (Int × ParsedWP) × List (RawWP × String))
    (elem : RawWP) : List (Int × ParsedWP) × List (RawWP × String) :=
  match normalize_wp elem with
  | none => acc
  | some (k, v) => (dinsert k v acc.1, acc.2)

/-- `parse_workpackages`: fold the loop over the element list, building
the `parsed_wps` dict and the (here always empty, see `normalize_wp`)
error list. -/
def parse_workpackages (workpackages : List RawWP) :
    List (Int × ParsedWP) × List (RawWP × String) :=
  workpackages.foldl parse_wps_step ([], [])

/-! ## `str_to_date`, `timedelta(hours=1)`, `astimezone().isoformat()` -/

/-- A `datetime.datetime` value as the script uses it (naive, second
precision; `datetime` validates `1 <= year <= 9999` and the other field
ranges on construction). -/
structure PyDateTime where
  year : Nat
  month : Nat
  day : Nat
  hour : Nat
  minute : Nat
  second : Nat
  deriving Repr, DecidableEq

def isLeap (y : Nat) : Bool := y % 4 = 0 && (y % 100 ≠ 0 || y % 400 = 0)

def daysInMonth (y m : Nat) : Nat :=
  if m = 2 then (if isLeap y then 29 else 28)
  else if m = 4 ∨ m = 6 ∨ m = 9 ∨ m = 11 then 30
  else 31

/-- `str_to_date(date, hour)`: split on `'-'` / `':'`, convert every
segment with `int(...)` (Python's list comprehension converts all
segments before indexing), index components `[0] [1] [2]`, then build
`datetime(...)`, which validates the ranges. -/
def str_to_date (date : String) (hour : String) : Except String PyDateTime := do
  let dparts ← (pySplit '-' date).mapM pyInt
  let hparts ← (pySplit ':' hour).mapM pyInt
  let y ← pyIndex dparts 0
  let mo ← pyIndex dparts 1
  let d ← pyIndex dparts 2
  let h ← pyIndex hparts 0
  let mi ← pyIndex hparts 1
  let s ← pyIndex hparts 2
  if 1 ≤ y ∧ y ≤ 9999 ∧ 1 ≤ mo ∧ mo ≤ 12 ∧ 1 ≤ d
      ∧ d ≤ (daysInMonth y.toNat mo.toNat : Int) ∧ 0 ≤ h ∧ h ≤ 23
      ∧ 0 ≤ mi ∧ mi ≤ 59 ∧ 0 ≤ s ∧ s ≤ 59 then
    Except.ok ⟨y.toNat, mo.toNat, d.toNat, h.toNat, mi.toNat, s.toNat⟩
  else
    Except.error "ValueError: invalid datetime component"

/-- `event_start + timedelta(hours=1)` with calendar rollover; `none`
models `OverflowError` past `datetime.max` (year 9999). -/
def addHour (t : PyDateTime) : Option PyDateTime :=
  if t.hour < 23 then some { t with hour := t.hour + 1 }
  else if t.day < daysInMonth t.year t.month then
    some { t with hour := 0, day := t.day + 1 }
  else if t.month < 12 then
    some { t with hour := 0, day := 1, month := t.month + 1 }
  else if t.year < 9999 then
    some { t with hour := 0, day := 1, month := 1, year := t.year + 1 }
  else none

/-- Zero-padded 2-digit decimal (all validated fields are `≤ 99`, for
which this agrees with Python's `%02d` rendering). -/
def pad2 (n : Nat) : List Char := [Nat.digitChar (n / 10 % 10), Nat.digitChar (n % 10)]

/-- Zero-padded 4-digit decimal (validated years are `≤ 9999`, for which
this agrees with Python's `%04d` rendering). -/
def pad4 (n : Nat) : List Char :=
  [Nat.digitChar (n / 1000 % 10), Nat.digitChar (n / 100 % 10),
   Nat.digitChar (n / 10 % 10), Nat.digitChar (n % 10)]

/-- The date part `YYYY-MM-DD` of `isoformat`. -/
def dateChars (t : PyDateTime) : List Char :=
  pad4 t.year ++ '-' :: pad2 t.month ++ '-' :: pad2 t.day

/-- The time part `HH:MM:SS` of `isoformat`. -/
def timeChars (t : PyDateTime) : List Char :=
  pad2 t.hour ++ ':' :: pad2 t.minute ++ ':' :: pad2 t.second

/-- `dt.astimezone().isoformat()` for the naive datetimes the script
builds: `astimezone()` attaches the host's local UTC offset without
changing the wall-clock fields, and `isoformat()` renders
`YYYY-MM-DDTHH:MM:SS` followed by the offset suffix (e.g. `"+00:00"`).
The host-dependent suffix is the explicit parameter `tz`. -/
def isoformat (tz : String) (t : PyDateTime) : String :=
  String.mk (dateChars t ++ 'T' :: (timeChars t ++ tz.data))

/-! ## Event payload construction: `wp_to_event` -/

/-- The reminder block of the payload (fixed policy). -/
structure Reminders where
  useDefault : Bool
  overrides : List (String × Nat)
  deriving Repr, DecidableEq

/-- The event body `wp_to_event` hands to the Google API. -/
structure GEvent where
  summary : String
  description : String
  start_dateTime : String
  end_dateTime : String
  reminders : Reminders
  deriving Repr, DecidableEq

/-- `wp_to_event(work_package)`.  The `tz` parameter is the local UTC
offset suffix `astimezone().isoformat()` appends (see `isoformat`).
An `error` is an exception escaping the (uncaught inside this function)
`str_to_date` call or the `timedelta` overflow. -/
def wp_to_event (tz : String) (wp : ParsedWP) : Except String GEvent :=
  match str_to_date wp.due_date wp.due_hour with
  | Except.error e => Except.error e
  | Except.ok event_start =>
    match addHour event_start with
    | none => Except.error "OverflowError: date value out of range"
    | some event_finish =>
      Except.ok
        { summary := pyStr wp.wp_id ++ ":" ++ wp.subject
          description := wp.description ++ "Parent=" ++ wp.parent ++ "\n"
            ++ wp.assignee ++ "\n" ++ wp.updated_at
          start_dateTime := isoformat tz event_start
          end_dateTime := isoformat tz event_finish
          reminders := ⟨false, [("popup", 24 * 60), ("popup", 30)]⟩ }

/-! ## Event normalization: `parse_events` -/

/-- Loop body of `parse_events` for one element, in the source's
statement order; the first failing step raises, and the element goes to
the error list.  On success the result is the `int(tmp['wp_id'])` key
together with `tmp`. -/
def parse_event_elem (elem : RawEvent) : Except String (Int × ParsedEvent) :=
  match pyIndexFromEnd (pySplit '\n' elem.description) 2 with
  | Except.error e => Except.error e
  | Except.ok assignee =>
    match pyIndex (pySplit 'T' elem.end_dateTime) 1 with
    | Except.error e => Except.error e
    | Except.ok due_hour =>
      match pyInt ((pySplit ':' elem.summary).headD "") with
      | Except.error e => Except.error e
      | Except.ok key =>
        Except.ok (key,
          { event_id := elem.id
            wp_id := (pySplit ':' elem.summary).headD ""
            subject := (pySplit ':' elem.summary).getLastD ""
            assignee := assignee
            updated_at := (pySplit '\n' elem.description).getLastD ""
            due_date := (pySplit 'T' elem.end_dateTime).headD ""
            due_hour := due_hour })

/-- One iteration of the `parse_events` loop on the accumulated
`(parsed_events, err)` state. -/
def parse_events_step (acc : List (Int × ParsedEvent) × List (RawEvent × String))
    (elem : RawEvent) : List (Int × ParsedEvent) × List (RawEvent × String) :=
  match parse_event_elem elem with
  | Except.ok (k, v) => (dinsert k v acc.1, acc.2)
  | Except.error e => (acc.1, acc.2 ++ [(elem, e)])

/-- `parse_events`: fold the loop, building the `parsed_events` dict and
appending `(elem, error)` pairs for elements whose parsing raised. -/
def parse_events (events : List RawEvent) :
    List (Int × ParsedEvent) × List (RawEvent × String) :=
  events.foldl parse_events_step ([], [])

/-! ## Reconciler: `to_create`, `to_delete`, `may_update`, `synchronize_wps`

The Google Calendar service is abstracted as a sink: a call description
(insert / delete / update with their arguments) mapped to `none` for a
successful API call or `some msg` for a raised API error whose `str(...)`
is `msg`.  Each action executor returns the list of sink calls it
actually performed together with either `ok r` — the Python return value
(`None` on success, `str(error)` for a caught API failure) — or
`error e` for an exception escaping the executor (only possible from
`wp_to_event`, which both `to_create` and `may_update` invoke outside
their `try` blocks). -/

inductive SinkCall where
  | create (body : GEvent)
  | delete (eventId : String)
  | update (eventId : String) (body : GEvent)
  deriving Repr, DecidableEq

def Sink : Type := SinkCall → Option String

/-- `to_create(work_package, service, calendar_id)`: builds the payload
(outside the `try`), then attempts the insert; an API error is caught
and returned as `str(error)`. -/
def to_create (tz : String) (sink : Sink) (wp : ParsedWP) :
    List SinkCall × Except String (Option String) :=
  match wp_to_event tz wp with
  | Except.error e => ([], Except.error e)
  | Except.ok event =>
    ([SinkCall.create event], Except.ok (sink (SinkCall.create event)))

/-- `to_delete(parsed_event, service, calendar_id)`: attempts the delete;
an API error is caught and returned as `str(error)`. -/
def to_delete (sink : Sink) (pe : ParsedEvent) :
    List SinkCall × Except String (Option String) :=
  ([SinkCall.delete pe.event_id], Except.ok (sink (SinkCall.delete pe.event_id)))

/-- `may_update(work_package, parsed_event, service, calendar_id)`: when
the `updated_at` strings differ, rebuild the payload (outside the `try`)
and attempt the update; equal strings fall through and return `None`. -/
def may_update (tz : String) (sink : Sink) (wp : ParsedWP) (pe : ParsedEvent) :
    List SinkCall × Except String (Option String) :=
  if wp.updated_at ≠ pe.updated_at then
    match wp_to_event tz wp with
    | Except.error e => ([], Except.error e)
    | Except.ok tmp =>
      ([SinkCall.update pe.event_id tmp],
       Except.ok (sink (SinkCall.update pe.event_id tmp)))
  else ([], Except.ok none)

/-! The three key sets of `synchronize_wps`.  Python iterates `set`s in
an unspecified order; the embedding fixes the deterministic order
"first occurrence in the dict" (`dedup` keeps first occurrences), and
also provides the sets as `Finset`s, which is what `set.difference` /
`set.intersection` compute. -/

def to_create_list (wps : List (Int × ParsedWP)) (evs : List (Int × ParsedEvent)) :
    List Int :=
  (keyList wps).dedup.filter (fun k => !decide (k ∈ keyList evs))

def to_delete_list (wps : List (Int × ParsedWP)) (evs : List (Int × ParsedEvent)) :
    List Int :=
  (keyList evs).dedup.filter (fun k => !decide (k ∈ keyList wps))

def may_update_list (wps : List (Int × ParsedWP)) (evs : List (Int × ParsedEvent)) :
    List Int :=
  (keyList evs).dedup.filter (fun k => decide (k ∈ keyList wps))

def wp_key_set (wps : List (Int × ParsedWP)) : Finset Int := (keyList wps).toFinset

def ev_key_set (evs : List (Int × ParsedEvent)) : Finset Int := (keyList evs).toFinset

/-- `to_create_set = wps_on_openproject.difference(wps_on_calendar)`. -/
def to_create_set (wps : List (Int × ParsedWP)) (evs : List (Int × ParsedEvent)) :
    Finset Int := wp_key_set wps \ ev_key_set evs

/-- `to_delete_set = wps_on_calendar.difference(wps_on_openproject)`. -/
def to_delete_set (wps : List (Int × ParsedWP)) (evs : List (Int × ParsedEvent)) :
    Finset Int := ev_key_set evs \ wp_key_set wps

/-- `may_update_set = wps_on_calendar.intersection(wps_on_openproject)`. -/
def may_update_set (wps : List (Int × ParsedWP)) (evs : List (Int × ParsedEvent)) :
    Finset Int := ev_key_set evs ∩ wp_key_set wps

/-- One phase loop: run `f` on each id, appending the per-id result to
the error list; an exception escaping `f` aborts the loop (and, in
`synchronize_wps`, the whole run).  The performed sink calls are
reported in either case. -/
def runPhase (f : Int → List SinkCall × Except String (Option String)) :
    List Int → List SinkCall × Except String (List (Option String))
  | [] => ([], Except.ok [])
  | k :: ks =>
    match f k with
    | (cs, Except.error e) => (cs, Except.error e)
    | (cs, Except.ok o) =>
      match runPhase f ks with
      | (cs', r) => (cs ++ cs', r.map (fun os => o :: os))

/-- Create-phase body for one id: `to_create(parsed_wps[wp_id], ...)`.
A failing dict lookup would be a `KeyError` (unreachable: the id comes
from the dict's own key set). -/
def create_entry (tz : String) (sink : Sink) (wps : List (Int × ParsedWP))
    (k : Int) : List SinkCall × Except String (Option String) :=
  match dlookup k wps with
  | none => ([], Except.error "KeyError")
  | some wp => to_create tz sink wp

/-- Delete-phase body for one id: `to_delete(parsed_events[wp_id], ...)`. -/
def delete_entry (sink : Sink) (evs : List (Int × ParsedEvent)) (k : Int) :
    List SinkCall × Except String (Option String) :=
  match dlookup k evs with
  | none => ([], Except.error "KeyError")
  | some pe => to_delete sink pe

/-- Update-phase body for one id:
`may_update(parsed_wps[wp_id], parsed_events[wp_id], ...)`. -/
def update_entry (tz : String) (sink : Sink) (wps : List (Int × ParsedWP))
    (evs : List (Int × ParsedEvent)) (k : Int) :
    List SinkCall × Except String (Option String) :=
  match dlookup k wps, dlookup k evs with
  | some wp, some pe => may_update tz sink wp pe
  | _, _ => ([], Except.error "KeyError")

/-- `synchronize_wps(parsed_wps, parsed_events, service, calendar_id)`:
compute the three key sets, run the three phase loops in order, and
return `[wp_ids, error]`.  The first component of the result is the
full trace of sink calls performed (an observation added by the
embedding); the second is `ok` of the Python return value, or `error`
for an exception escaping the function (which in the source aborts the
run before anything is returned). -/
def synchronize_wps (tz : String) (wps : List (Int × ParsedWP))
    (evs : List (Int × ParsedEvent)) (sink : Sink) :
    List SinkCall ×
      Except String ((List Int × List Int × List Int) ×
        (List (Option String) × List (Option String) × List (Option String))) :=
  match runPhase (create_entry tz sink wps) (to_create_list wps evs) with
  | (cs, Except.error e) => (cs, Except.error e)
  | (cs, Except.ok ce) =>
    match runPhase (delete_entry sink evs) (to_delete_list wps evs) with
    | (ds, Except.error e) => (cs ++ ds, Except.error e)
    | (ds, Except.ok de) =>
      match runPhase (update_entry tz sink wps evs) (may_update_list wps evs) with
      | (us, Except.error e) => (cs ++ ds ++ us, Except.error e)
      | (us, Except.ok ue) =>
        (cs ++ ds ++ us,
         Except.ok ((to_create_list wps evs, to_delete_list wps evs,
            may_update_list wps evs), (ce, de, ue)))

/-- The raw event record the calendar hands back for a stored payload:
`list_events` returns the event's id together with the `summary`,
`description` and `end.dateTime` fields exactly as stored by
`events().insert`/`update`.  This is the composition glue for the
round-trip `parse_events ∘ wp_to_event`. -/
def event_payload_as_raw (eventId : String) (e : GEvent) : RawEvent :=
  { id := eventId, summary := e.summary, description := e.description
    end_dateTime := e.end_dateTime }

/-! ## Lemmas about the Python string primitives -/

theorem splitCh_ne_nil (sep : Char) (l : List Char) : splitCh sep l ≠ [] := by
  induction l with
  | nil => simp [splitCh]
  | cons c cs ih =>
    simp only [splitCh]
    rcases h : splitCh sep cs with _ | ⟨g, gs⟩
    · exact absurd h ih
    · by_cases hc : c = sep <;> simp [hc]

theorem splitCh_of_not_mem {sep : Char} {l : List Char} (h : sep ∉ l) :
    splitCh sep l = [l] := by
  induction l with
  | nil => rfl
  | cons c cs ih =>
    have hc : ¬ c = sep := fun hc => h (hc ▸ List.mem_cons_self c cs)
    have hcs : sep ∉ cs := fun hm => h (List.mem_cons_of_mem c hm)
    simp only [splitCh, ih hcs]
    simp [hc]

theorem splitCh_append_sep (sep : Char) (xs ys : List Char) :
    splitCh sep (xs ++ sep :: ys) = splitCh sep xs ++ splitCh sep ys := by
  induction xs with
  | nil =>
    simp only [List.nil_append, splitCh]
    rcases h : splitCh sep ys with _ | ⟨g, gs⟩
    · exact absurd h (splitCh_ne_nil sep ys)
    · simp
  | cons c cs ih =>
    show splitCh sep (c :: (cs ++ sep :: ys)) = splitCh sep (c :: cs) ++ splitCh sep ys
    simp only [splitCh]
    rw [ih]
    rcases h : splitCh sep cs with _ | ⟨g, gs⟩
    · exact absurd h (splitCh_ne_nil sep cs)
    · by_cases hc : c = sep <;> simp [hc]

theorem dropWhile_eq_self {p : Char → Bool} {l : List Char}
    (h : ∀ c ∈ l, p c = false) : l.dropWhile p = l := by
  cases l with
  | nil => rfl
  | cons c cs => simp [List.dropWhile, h c (List.mem_cons_self c cs)]

/-- `pyStrip` is the identity on strings with no leading/trailing
whitespace anywhere. -/
theorem pyStrip_eq_self {l : List Char} (h : ∀ c ∈ l, c.isWhitespace = false) :
    pyStrip (String.mk l) = String.mk l := by
  simp only [pyStrip]
  rw [dropWhile_eq_self h, dropWhile_eq_self (by intro c hc; exact h c (by simpa using hc))]
  simp

theorem digitChar_ne_T {k : Nat} (h : k < 10) : Nat.digitChar k ≠ 'T' := by
  interval_cases k <;> decide

theorem digitChar_ne_colon {k : Nat} (h : k < 10) : Nat.digitChar k ≠ ':' := by
  interval_cases k <;> decide

theorem digitChar_not_whitespace {k : Nat} (h : k < 10) :
    (Nat.digitChar k).isWhitespace = false := by
  interval_cases k <;> decide

theorem digitChar_ne_dash {k : Nat} (h : k < 10) : Nat.digitChar k ≠ '-' := by
  interval_cases k <;> decide

theorem digitChar_ne_plus {k : Nat} (h : k < 10) : Nat.digitChar k ≠ '+' := by
  interval_cases k <;> decide

theorem natReprAux_ne_nil : ∀ {fuel n : Nat}, n < fuel → natReprAux fuel n ≠ [] := by
  intro fuel
  induction fuel with
  | zero => intro n h; omega
  | succ f ih =>
    intro n _
    simp only [natReprAux]
    split <;> simp

theorem natRepr_ne_nil (n : Nat) : natRepr n ≠ [] :=
  natReprAux_ne_nil (Nat.lt_succ_self n)

theorem mem_natReprAux : ∀ {fuel n : Nat} {c : Char}, n < fuel →
    c ∈ natReprAux fuel n → ∃ k, k < 10 ∧ c = Nat.digitChar k := by
  intro fuel
  induction fuel with
  | zero => intro n c h; omega
  | succ f ih =>
    intro n c hn h
    simp only [natReprAux] at h
    split at h
    · next hlt => simp at h; exact ⟨n, hlt, h⟩
    · next hge =>
      rcases List.mem_append.mp h with h' | h'
      · have hdiv : n / 10 < f := by
          have := Nat.div_lt_self (show 0 < n by omega) (show 1 < 10 by omega)
          omega
        exact ih hdiv h'
      · simp at h'
        exact ⟨n % 10, Nat.mod_lt n (by omega), h'⟩

theorem mem_natRepr {c : Char} {n : Nat} (h : c ∈ natRepr n) :
    ∃ k, k < 10 ∧ c = Nat.digitChar k :=
  mem_natReprAux (Nat.lt_succ_self n) h

theorem digitVal_digitChar {k : Nat} (h : k < 10) :
    digitVal (Nat.digitChar k) = some k := by
  interval_cases k <;> decide

theorem digitsToNat_append (acc : Nat) (xs ys : List Char) :
    digitsToNat acc (xs ++ ys) =
      (digitsToNat acc xs).bind (fun a => digitsToNat a ys) := by
  induction xs generalizing acc with
  | nil => simp [digitsToNat]
  | cons c cs ih =>
    simp only [List.cons_append, digitsToNat]
    rcases h : digitVal c with _ | d
    · simp
    · simp [ih]

theorem digitsToNat_natReprAux : ∀ {fuel n : Nat}, n < fuel →
    digitsToNat 0 (natReprAux fuel n) = some n := by
  intro fuel
  induction fuel with
  | zero => intro n h; omega
  | succ f ih =>
    intro n hn
    simp only [natReprAux]
    split
    · next hlt => simp [digitsToNat, digitVal_digitChar hlt]
    · next hge =>
      have hdiv : n / 10 < f := by
        have := Nat.div_lt_self (show 0 < n by omega) (show 1 < 10 by omega)
        omega
      rw [digitsToNat_append, ih hdiv]
      simp [digitsToNat, digitVal_digitChar (Nat.mod_lt n (by omega))]
      omega

theorem digitsToNat_natRepr (n : Nat) : digitsToNat 0 (natRepr n) = some n :=
  digitsToNat_natReprAux (Nat.lt_succ_self n)

/-- Python `int(str(i)) == i`: the decimal printer and `int(...)` are a
true inverse pair. -/
theorem pyInt_pyStr (i : Int) : pyInt (pyStr i) = Except.ok i := by
  have hnws : ∀ c ∈ natRepr i.natAbs, c.isWhitespace = false := by
    intro c hc
    obtain ⟨k, hk, rfl⟩ := mem_natRepr hc
    exact digitChar_not_whitespace hk
  by_cases hi : i < 0
  · simp only [pyStr, if_pos hi, pyInt]
    rw [pyStrip_eq_self (by
      intro c hc
      rcases List.mem_cons.mp hc with rfl | hc'
      · decide
      · exact hnws c hc')]
    simp [pyIntCore, natRepr_ne_nil i.natAbs, digitsToNat_natRepr]
    simp [abs_of_neg hi]
  · simp only [pyStr, if_neg hi, pyInt]
    rw [pyStrip_eq_self hnws]
    rcases hrep : natRepr i.natAbs with _ | ⟨c, cs⟩
    · exact absurd hrep (natRepr_ne_nil i.natAbs)
    · have hc : ∃ k, k < 10 ∧ c = Nat.digitChar k := by
        apply @mem_natRepr _ i.natAbs
        rw [hrep]; exact List.mem_cons_self c cs
      obtain ⟨k, hk, rfl⟩ := hc
      have hds : digitsToNat 0 (Nat.digitChar k :: cs) = some i.natAbs := by
        rw [← hrep]; exact digitsToNat_natRepr i.natAbs
      simp [pyIntCore, digitChar_ne_dash hk, digitChar_ne_plus hk, hds]
      omega

/-! ## Lemmas about dicts, the phase loops and the key sets -/

theorem dlookup_mem {k : Int} {v : α} {m : List (Int × α)}
    (h : dlookup k m = some v) : (k, v) ∈ m := by
  induction m with
  | nil => simp [dlookup] at h
  | cons p rest ih =>
    obtain ⟨k', v'⟩ := p
    by_cases hk : k' = k
    · subst hk
      simp [dlookup] at h
      simp [h]
    · simp [dlookup, hk] at h
      exact List.mem_cons_of_mem _ (ih h)

theorem mem_dinsert {p : Int × α} {k : Int} {v : α} {m : List (Int × α)}
    (h : p ∈ dinsert k v m) : p = (k, v) ∨ p ∈ m := by
  induction m with
  | nil => simp [dinsert] at h; simp [h]
  | cons q rest ih =>
    obtain ⟨k', v'⟩ := q
    by_cases hk : k' = k
    · subst hk
      simp [dinsert] at h
      rcases h with h | h
      · exact Or.inl h
      · exact Or.inr (List.mem_cons_of_mem _ h)
    · simp [dinsert, hk] at h
      rcases h with h | h
      · exact Or.inr (by simp [h])
      · rcases ih h with h' | h'
        · exact Or.inl h'
        · exact Or.inr (List.mem_cons_of_mem _ h')

theorem exists_dlookup_of_mem_keyList {k : Int} {m : List (Int × α)}
    (h : k ∈ keyList m) : ∃ v, dlookup k m = some v := by
  induction m with
  | nil => simp [keyList] at h
  | cons p rest ih =>
    obtain ⟨k', v'⟩ := p
    by_cases hk : k' = k
    · exact ⟨v', by simp [dlookup, hk]⟩
    · simp [keyList, hk] at h
      rcases h with h | h
      · exact absurd h (fun h' => hk h'.symm)
      · obtain ⟨v, hv⟩ := ih (by simpa [keyList] using h)
        exact ⟨v, by simp [dlookup, hk, hv]⟩

theorem runPhase_ok_length {f : Int → List SinkCall × Except String (Option String)}
    {ks : List Int} {es : List (Option String)}
    (h : (runPhase f ks).2 = Except.ok es) : es.length = ks.length := by
  induction ks generalizing es with
  | nil => simp [runPhase] at h; simp [← h]
  | cons k rest ih =>
    simp only [runPhase] at h
    rcases hf : f k with ⟨cs, r⟩
    rw [hf] at h
    cases r with
    | error e => simp [Except.map] at h
    | ok o =>
      rcases hr : runPhase f rest with ⟨cs', r'⟩
      rw [hr] at h
      cases r' with
      | error e => simp [Except.map] at h
      | ok es' =>
        simp [Except.map] at h
        have := @ih es' (by rw [hr])
        simp [← h, this]

theorem runPhase_ok_of_entries {f : Int → List SinkCall × Except String (Option String)}
    {g : Int → Option String} {ks : List Int}
    (h : ∀ k ∈ ks, (f k).2 = Except.ok (g k)) :
    (runPhase f ks).2 = Except.ok (ks.map g) := by
  induction ks with
  | nil => simp [runPhase]
  | cons k rest ih =>
    simp only [runPhase]
    rcases hf : f k with ⟨cs, r⟩
    have hk := h k (List.mem_cons_self k rest)
    rw [hf] at hk
    simp at hk
    subst hk
    rcases hr : runPhase f rest with ⟨cs', r'⟩
    have := ih (fun k' hk' => h k' (List.mem_cons_of_mem k hk'))
    rw [hr] at this
    simp at this
    subst this
    simp [Except.map]

theorem to_create_list_toFinset (wps : List (Int × ParsedWP))
    (evs : List (Int × ParsedEvent)) :
    (to_create_list wps evs).toFinset = to_create_set wps evs := by
  ext x
  simp [to_create_list, to_create_set, wp_key_set, ev_key_set, List.mem_filter]

theorem to_delete_list_toFinset (wps : List (Int × ParsedWP))
    (evs : List (Int × ParsedEvent)) :
    (to_delete_list wps evs).toFinset = to_delete_set wps evs := by
  ext x
  simp [to_delete_list, to_delete_set, wp_key_set, ev_key_set, List.mem_filter]

theorem may_update_list_toFinset (wps : List (Int × ParsedWP))
    (evs : List (Int × ParsedEvent)) :
    (may_update_list wps evs).toFinset = may_update_set wps evs := by
  ext x
  simp [may_update_list, may_update_set, wp_key_set, ev_key_set, List.mem_filter]

theorem to_create_list_nodup (wps : List (Int × ParsedWP))
    (evs : List (Int × ParsedEvent)) : (to_create_list wps evs).Nodup :=
  (List.nodup_dedup _).filter _

theorem to_delete_list_nodup (wps : List (Int × ParsedWP))
    (evs : List (Int × ParsedEvent)) : (to_delete_list wps evs).Nodup :=
  (List.nodup_dedup _).filter _

theorem may_update_list_nodup (wps : List (Int × ParsedWP))
    (evs : List (Int × ParsedEvent)) : (may_update_list wps evs).Nodup :=
  (List.nodup_dedup _).filter _

theorem to_create_list_length (wps : List (Int × ParsedWP))
    (evs : List (Int × ParsedEvent)) :
    (to_create_list wps evs).length = (to_create_set wps evs).card := by
  rw [← to_create_list_toFinset, List.toFinset_card_of_nodup (to_create_list_nodup wps evs)]

theorem to_delete_list_length (wps : List (Int × ParsedWP))
    (evs : List (Int × ParsedEvent)) :
    (to_delete_list wps evs).length = (to_delete_set wps evs).card := by
  rw [← to_delete_list_toFinset, List.toFinset_card_of_nodup (to_delete_list_nodup wps evs)]

theorem may_update_list_length (wps : List (Int × ParsedWP))
    (evs : List (Int × ParsedEvent)) :
    (may_update_list wps evs).length = (may_update_set wps evs).card := by
  rw [← may_update_list_toFinset, List.toFinset_card_of_nodup (may_update_list_nodup wps evs)]

/-! ## Characterization lemmas for the field mapper -/

theorem pyIndexFromEnd_append_two (l : List α) (a u : α) :
    pyIndexFromEnd (l ++ [a, u]) 2 = Except.ok a := by
  simp [pyIndexFromEnd, List.reverse_append]

theorem getLastD_singleton_append (l : List α) (a : α) (d : α) :
    (l ++ [a]).getLastD d = a := by
  rw [List.getLastD_eq_getLast?, List.getLast?_concat]
  rfl

theorem getLastD_append_two (l : List α) (a u : α) (d : α) :
    (l ++ [a, u]).getLastD d = u := by
  rw [show l ++ [a, u] = (l ++ [a]) ++ [u] by simp]
  exact getLastD_singleton_append _ u d

/-- If `wp_to_event` succeeds, the payload's fields are exactly these. -/
theorem wp_to_event_eq {wp : ParsedWP} {start fin : PyDateTime} (tz : String)
    (hs : str_to_date wp.due_date wp.due_hour = Except.ok start)
    (hf : addHour start = some fin) :
    wp_to_event tz wp = Except.ok
      { summary := pyStr wp.wp_id ++ ":" ++ wp.subject
        description := wp.description ++ "Parent=" ++ wp.parent ++ "\n"
          ++ wp.assignee ++ "\n" ++ wp.updated_at
        start_dateTime := isoformat tz start
        end_dateTime := isoformat tz fin
        reminders := ⟨false, [("popup", 24 * 60), ("popup", 30)]⟩ } := by
  simp [wp_to_event, hs, hf]

/-- Conversely, a successful `wp_to_event` run determines a start time, a
finish time one hour later, and the payload shape. -/
theorem wp_to_event_ok_inv {tz : String} {wp : ParsedWP} {ev : GEvent}
    (h : wp_to_event tz wp = Except.ok ev) :
    ∃ start fin, str_to_date wp.due_date wp.due_hour = Except.ok start ∧
      addHour start = some fin ∧
      ev = { summary := pyStr wp.wp_id ++ ":" ++ wp.subject
             description := wp.description ++ "Parent=" ++ wp.parent ++ "\n"
               ++ wp.assignee ++ "\n" ++ wp.updated_at
             start_dateTime := isoformat tz start
             end_dateTime := isoformat tz fin
             reminders := ⟨false, [("popup", 24 * 60), ("popup", 30)]⟩ } := by
  rcases hs : str_to_date wp.due_date wp.due_hour with e | start
  · rw [wp_to_event, hs] at h
    simp at h
  · rcases hf : addHour start with _ | fin
    · rw [wp_to_event, hs] at h
      simp [hf] at h
    · refine ⟨start, fin, rfl, hf, ?_⟩
      rw [wp_to_event_eq tz hs hf] at h
      simpa using h.symm

/-- A successful `parse_event_elem` run: the stored `wp_id` field is the
head `':'`-segment of the title and the dict key is its `int(...)`
value; the `event_id` field is the raw event's id. -/
theorem parse_event_elem_ok {elem : RawEvent} {k : Int} {pe : ParsedEvent}
    (h : parse_event_elem elem = Except.ok (k, pe)) :
    pyInt pe.wp_id = Except.ok k ∧ pe.event_id = elem.id ∧
      pe.wp_id = (pySplit ':' elem.summary).headD "" := by
  unfold parse_event_elem at h
  rcases h1 : pyIndexFromEnd (pySplit '\n' elem.description) 2 with e | assignee
  · rw [h1] at h; simp at h
  rw [h1] at h
  rcases h2 : pyIndex (pySplit 'T' elem.end_dateTime) 1 with e | due_hour
  · rw [h2] at h; simp at h
  rw [h2] at h
  rcases h3 : pyInt ((pySplit ':' elem.summary).headD "") with e | key
  · rw [h3] at h; simp at h
  rw [h3] at h
  simp only [Except.ok.injEq, Prod.mk.injEq] at h
  obtain ⟨hk, hpe⟩ := h
  subst hk
  subst hpe
  exact ⟨h3, rfl, rfl⟩

/-- Fold invariant: every pair in the parsed-events dict has a key that
is the `int(...)` of its record's `wp_id` string. -/
theorem parse_events_key_inv {events : List RawEvent} {k : Int} {pe : ParsedEvent}
    (h : (k, pe) ∈ (parse_events events).1) : pyInt pe.wp_id = Except.ok k := by
  suffices haux : ∀ (es : List RawEvent)
      (acc : List (Int × ParsedEvent) × List (RawEvent × String)),
      (∀ q ∈ acc.1, pyInt (Prod.snd q).wp_id = Except.ok q.1) →
      ∀ q ∈ (es.foldl parse_events_step acc).1,
        pyInt (Prod.snd q).wp_id = Except.ok q.1 by
    exact haux events ([], []) (by simp) (k, pe) h
  intro es
  induction es with
  | nil => intro acc hacc q hq; exact hacc q hq
  | cons e rest ih =>
    intro acc hacc q hq
    simp only [List.foldl_cons] at hq
    refine ih (parse_events_step acc e) ?_ q hq
    intro q' hq'
    unfold parse_events_step at hq'
    rcases he : parse_event_elem e with err | ⟨k', pe'⟩
    all_goals rw [he] at hq'
    · exact hacc q' hq'
    · simp only at hq'
      rcases mem_dinsert hq' with h' | h'
      · subst h'
        exact (parse_event_elem_ok he).1
      · exact hacc q' h'

theorem splitCh_two {sep : Char} {xs ys : List Char} (hx : sep ∉ xs)
    (hy : sep ∉ ys) : splitCh sep (xs ++ sep :: ys) = [xs, ys] := by
  rw [splitCh_append_sep, splitCh_of_not_mem hx, splitCh_of_not_mem hy]
  rfl

/-! ## Claim C3: the partition identities -/

/-- C3: for every pair of parsed maps, the reconciler's three key sets
satisfy `to_create ∪ to_update_candidates = all task ids`,
`to_delete ∪ to_update_candidates = all event wp_ids`, and the three
sets are pairwise disjoint. -/
theorem C3_partition_complete (wps : List (Int × ParsedWP))
    (evs : List (Int × ParsedEvent)) :
    to_create_set wps evs ∪ may_update_set wps evs = wp_key_set wps ∧
    to_delete_set wps evs ∪ may_update_set wps evs = ev_key_set evs ∧
    Disjoint (to_create_set wps evs) (to_delete_set wps evs) ∧
    Disjoint (to_create_set wps evs) (may_update_set wps evs) ∧
    Disjoint (to_delete_set wps evs) (may_update_set wps evs) := by
  unfold to_create_set to_delete_set may_update_set
  refine ⟨?_, ?_, ?_, ?_, ?_⟩
  · ext x
    simp only [Finset.mem_union, Finset.mem_sdiff, Finset.mem_inter]
    tauto
  · ext x
    simp only [Finset.mem_union, Finset.mem_sdiff, Finset.mem_inter]
    tauto
  · rw [Finset.disjoint_left]
    intro x hx hx'
    simp only [Finset.mem_sdiff] at hx hx'
    tauto
  · rw [Finset.disjoint_left]
    intro x hx hx'
    simp only [Finset.mem_sdiff, Finset.mem_inter] at hx hx'
    tauto
  · rw [Finset.disjoint_left]
    intro x hx hx'
    simp only [Finset.mem_sdiff, Finset.mem_inter] at hx hx'
    tauto

/-! ## Claim C7: the event body wire format -/

/-- A sample normalized work package with a well-formed due date/hour. -/
def wpC7demo : ParsedWP :=
  ⟨9, "s", "d", "p", "a", "2024-03-01", "08:15:00", "u"⟩

/-- The payload `wp_to_event` builds for `wpC7demo` at offset `+00:00`. -/
def evC7demo : GEvent :=
  ⟨"9:s", "dParent=p\na\nu", "2024-03-01T08:15:00+00:00",
   "2024-03-01T09:15:00+00:00", ⟨false, [("popup", 1440), ("popup", 30)]⟩⟩

/-- C7 counterexample: the body built for `wpC7demo` is
`"dParent=p\na\nu"`, not `"d\nParent=p\na\nu"`: no newline separates the
description from the `Parent=` line (the source comments that the HTML
description already ends in `</p>` so none is added). -/
theorem C7_counterexample_no_newline :
    wp_to_event "+00:00" wpC7demo = Except.ok evC7demo ∧
    evC7demo.description ≠
      wpC7demo.description ++ "\n" ++ "Parent=" ++ wpC7demo.parent ++ "\n"
        ++ wpC7demo.assignee ++ "\n" ++ wpC7demo.updated_at :=
  ⟨rfl, by decide⟩

/-- C7 amended: the event body is exactly the description immediately
followed by `"Parent="` and the parent string (no newline in between),
then a newline, the assignee, a newline, and the `updated_at` string. -/
theorem C7_amended_body_format (tz : String) (wp : ParsedWP) (ev : GEvent)
    (h : wp_to_event tz wp = Except.ok ev) :
    ev.description = wp.description ++ "Parent=" ++ wp.parent ++ "\n"
      ++ wp.assignee ++ "\n" ++ wp.updated_at := by
  obtain ⟨start, fin, hs, hf, rfl⟩ := wp_to_event_ok_inv h
  rfl

/-- C7 amended, witnessed at `wpC7demo`. -/
theorem C7_amended_body_format_witness :
    evC7demo.description = wpC7demo.description ++ "Parent=" ++ wpC7demo.parent
      ++ "\n" ++ wpC7demo.assignee ++ "\n" ++ wpC7demo.updated_at :=
  C7_amended_body_format "+00:00" wpC7demo evC7demo rfl

/-! ## Claim C5: the exclusion rule -/

/-- A raw work package with a `None` description (excluded from sync). -/
def rawC5excluded : RawWP := ⟨1, "s", none, "", none, "", none, "", none, "c", "u"⟩

/-- A parsed calendar event whose key is the excluded task's id. -/
def peC5demo : ParsedEvent := ⟨"ev1", "1", "s", "a", "u", "2024-03-01", "09:00:00+00:00"⟩

/-- C5 counterexample: an excluded task produces no record and no error,
but when the calendar still holds an event keyed by its id, the
reconciliation run issues a delete action for that id — so "no create,
delete or update action of any kind" fails for the delete phase. -/
theorem C5_counterexample_delete_issued :
    parse_workpackages [rawC5excluded] = ([], []) ∧
    synchronize_wps "+00:00" (parse_workpackages [rawC5excluded]).1
        [(1, peC5demo)] (fun _ => none) =
      ([SinkCall.delete "ev1"], Except.ok (([], [1], []), ([], [none], []))) :=
  ⟨rfl, rfl⟩

/-- C5 amended: an excluded raw task (null description or first line
`"!!!"`) contributes nothing to the parsed map or the error list, and
its id reaches neither the create nor the update phase; it appears in
the delete phase exactly when the calendar holds an event with that id
(the stale event of an excluded task is deleted). -/
theorem C5_amended_excluded_skip (elem : RawWP) (rest : List RawWP)
    (evs : List (Int × ParsedEvent))
    (hexcl : elem.description_raw = none ∨
      ∃ raw, elem.description_raw = some raw ∧ (pySplit '\n' raw).headD "" = "!!!") :
    parse_workpackages (elem :: rest) = parse_workpackages rest ∧
    (elem.id ∉ keyList (parse_workpackages rest).1 →
      elem.id ∉ to_create_list (parse_workpackages rest).1 evs ∧
      elem.id ∉ may_update_list (parse_workpackages rest).1 evs ∧
      (elem.id ∈ to_delete_list (parse_workpackages rest).1 evs ↔
        elem.id ∈ (keyList evs).dedup)) := by
  have hnorm : normalize_wp elem = none := by
    rcases hexcl with h | ⟨raw, hraw, hline⟩
    · simp [normalize_wp, h]
    · rw [List.headD_eq_head?] at hline
      simp [normalize_wp, hraw, hline]
  refine ⟨?_, ?_⟩
  · simp [parse_workpackages, parse_wps_step, hnorm]
  · intro hnot
    refine ⟨?_, ?_, ?_⟩
    · intro hmem
      rw [to_create_list, List.mem_filter] at hmem
      exact hnot (List.mem_dedup.mp hmem.1)
    · intro hmem
      rw [may_update_list, List.mem_filter] at hmem
      have := hmem.2
      simp only [decide_eq_true_eq] at this
      exact hnot this
    · rw [to_delete_list]
      constructor
      · intro hmem
        exact (List.mem_filter.mp hmem).1
      · intro hmem
        rw [List.mem_filter]
        refine ⟨hmem, ?_⟩
        simp only [Bool.not_eq_true', decide_eq_false_iff_not]
        exact hnot

/-- C5 amended, witnessed: the concrete excluded task of the
counterexample is absent from the create and update phases, and present
in the delete phase because its event exists. -/
theorem C5_amended_excluded_skip_witness :
    parse_workpackages [rawC5excluded] = parse_workpackages [] ∧
    ((1 : Int) ∉ to_create_list (parse_workpackages []).1 [(1, peC5demo)] ∧
     (1 : Int) ∉ may_update_list (parse_workpackages []).1 [(1, peC5demo)] ∧
     ((1 : Int) ∈ to_delete_list (parse_workpackages []).1 [(1, peC5demo)] ↔
       (1 : Int) ∈ (keyList [(1, peC5demo)]).dedup)) := by
  have h := C5_amended_excluded_skip rawC5excluded [] [(1, peC5demo)] (Or.inl rfl)
  exact ⟨h.1, h.2 (by simp [parse_workpackages, keyList])⟩

/-! ## Claim C6: malformed due-hour lines are not rejected -/

/-- A raw work package with an explicit due date whose description's
last line (`"hello"`) carries no `dueHour=HH:MM:SS` value. -/
def rawC6bad : RawWP :=
  ⟨3, "t", some "hello", "<p>hello</p>", none, "", none, "",
   some "2024-03-01", "2024-01-01T00:00:00Z", "u1"⟩

/-- C6 counterexample: normalization of `rawC6bad` does NOT fail — the
error list stays empty and a normalized record is produced whose
`due_hour` is the whole malformed line `"hello"` (the `split('=')[-1]`
of a line without `'='` is the line itself; nothing validates the
`HH:MM:SS` shape). -/
theorem C6_counterexample_no_failure :
    (parse_workpackages [rawC6bad]).2 = [] ∧
    dlookup 3 (parse_workpackages [rawC6bad]).1 =
      some ⟨3, "t", "<p>hello</p>", "No parent", "Not assigned to anyone",
        "2024-03-01", "hello", "u1"⟩ :=
  ⟨rfl, rfl⟩

/-- C6 amended: for a non-excluded task with a truthy due date,
`parse_workpackages` records no error and produces a record whose
`due_hour` is the text after the last `'='` of the description's last
line, stripped — whatever that text is; the malformed value is only
rejected later, when `wp_to_event` builds the payload. -/
theorem C6_amended_no_validation (elem : RawWP) (raw : String)
    (hraw : elem.description_raw = some raw)
    (hskip : (pySplit '\n' raw).headD "" ≠ "!!!")
    (hdue : pyTruthy elem.dueDate = true) :
    (parse_workpackages [elem]).2 = [] ∧
    (parse_workpackages [elem]).1.map (fun p => (p.1, p.2.due_hour)) =
      [(elem.id, pyStrip ((pySplit '=' ((pySplit '\n' raw).getLastD "")).getLastD ""))] := by
  rw [List.headD_eq_head?] at hskip
  simp [parse_workpackages, parse_wps_step, normalize_wp, hraw, hskip, hdue, dinsert]

/-- C6 amended, witnessed at `rawC6bad`: the record's `due_hour` is the
malformed text `"hello"` and no error is recorded. -/
theorem C6_amended_no_validation_witness :
    (parse_workpackages [rawC6bad]).2 = [] ∧
    (parse_workpackages [rawC6bad]).1.map (fun p => (p.1, p.2.due_hour)) =
      [((3 : Int), "hello")] := by
  have h := C6_amended_no_validation rawC6bad "hello" rfl (by decide) rfl
  refine ⟨h.1, ?_⟩
  rw [h.2]
  rfl

/-! ## Claim C8: due defaults from the creation timestamp -/

/-- C8: for a non-excluded task with a falsy due date and a creation
timestamp of the shape `<date>T<time>Z`, the normalized `due_date` is
the date component and `due_hour` the time-of-day component of the
creation timestamp; the description (hence any `dueHour=` line in it)
plays no role in the due fields. -/
theorem C8_due_from_creation (elem : RawWP) (raw : String) (dd tt : List Char)
    (hraw : elem.description_raw = some raw)
    (hskip : (pySplit '\n' raw).headD "" ≠ "!!!")
    (hdue : pyTruthy elem.dueDate = false)
    (hfmt : elem.createdAt.data = dd ++ 'T' :: (tt ++ ['Z']))
    (hdd : 'T' ∉ dd) (htt : 'T' ∉ tt) :
    (parse_workpackages [elem]).2 = [] ∧
    (parse_workpackages [elem]).1.map (fun p => (p.1, p.2.due_date, p.2.due_hour)) =
      [(elem.id, String.mk dd, String.mk tt)] := by
  have hsplit : pySplit 'T' elem.createdAt = [String.mk dd, String.mk (tt ++ ['Z'])] := by
    rw [pySplit, hfmt, splitCh_two hdd (by simp [htt])]
    rfl
  rw [List.headD_eq_head?] at hskip
  simp [parse_workpackages, parse_wps_step, normalize_wp, hraw, hskip, hdue,
    hsplit, dinsert, pyDropLast]

/-- C8, witnessed on the spec's scenario: creation
`"2024-01-02T09:00:00Z"`, no due date, a `dueHour=14:30:00` line in the
description — the record gets `due_date = "2024-01-02"` and
`due_hour = "09:00:00"` (the dueHour line is ignored). -/
theorem C8_due_from_creation_witness :
    (parse_workpackages [⟨5, "Write report", some "Draft stuff\ndueHour=14:30:00",
        "<p>Draft stuff</p>", none, "", none, "", none,
        "2024-01-02T09:00:00Z", "2024-02-01T10:00:00Z"⟩]).2 = [] ∧
    (parse_workpackages [⟨5, "Write report", some "Draft stuff\ndueHour=14:30:00",
        "<p>Draft stuff</p>", none, "", none, "", none,
        "2024-01-02T09:00:00Z", "2024-02-01T10:00:00Z"⟩]).1.map
      (fun p => (p.1, p.2.due_date, p.2.due_hour)) =
      [((5 : Int), "2024-01-02", "09:00:00")] := by
  have h := C8_due_from_creation
    ⟨5, "Write report", some "Draft stuff\ndueHour=14:30:00",
     "<p>Draft stuff</p>", none, "", none, "", none,
     "2024-01-02T09:00:00Z", "2024-02-01T10:00:00Z"⟩
    "Draft stuff\ndueHour=14:30:00" "2024-01-02".data "09:00:00".data
    rfl (by decide) rfl (by decide) (by decide) (by decide)
  refine ⟨h.1, ?_⟩
  rw [h.2]

/-! ## Claim C9: the parsed event's `wp_id` field vs the dict key -/

/-- A raw calendar event whose title's first segment is `"007"`. -/
def rawC9demo : RawEvent :=
  ⟨"gid", "007:subj", "line1\nAlice\nupd", "2024-03-01T09:15:00+00:00"⟩

/-- C9 counterexample: `parse_events` stores the record under the
integer key `7` but the record's `wp_id` FIELD is the unparsed string
segment `"007"` — not an integer, and not even the decimal string of
the integer `7`. -/
theorem C9_counterexample_wp_id_string :
    (parse_events [rawC9demo]).1 =
      [(7, ⟨"gid", "007", "subj", "Alice", "upd", "2024-03-01", "09:15:00+00:00"⟩)] ∧
    pyStr 7 ≠ "007" :=
  ⟨rfl, by decide⟩

/-- C9 amended: for every successfully normalized event, the dict key is
`int(...)` of the record's `wp_id` string (the title's first
`':'`-segment); the `wp_id` field itself remains that raw string. -/
theorem C9_amended_key_is_int_of_field (events : List RawEvent) (k : Int)
    (pe : ParsedEvent) (h : (k, pe) ∈ (parse_events events).1) :
    pyInt pe.wp_id = Except.ok k :=
  parse_events_key_inv h

/-- The record `parse_events` produces for `rawC9demo`. -/
def peC9demo : ParsedEvent :=
  ⟨"gid", "007", "subj", "Alice", "upd", "2024-03-01", "09:15:00+00:00"⟩

/-- C9 amended, witnessed at `rawC9demo`: `int("007") = 7`. -/
theorem C9_amended_key_is_int_of_field_witness :
    pyInt peC9demo.wp_id = Except.ok 7 := by
  apply C9_amended_key_is_int_of_field [rawC9demo] 7 peC9demo
  rw [show (parse_events [rawC9demo]).1 = [(7, peC9demo)] from rfl]
  exact List.mem_singleton.mpr rfl

/-! ## Per-id outcomes of the three phases (used to state what a
successful run returns) -/

/-- The value the create phase appends for id `k` when the payload
builds and the only possible failure is the caught sink error: `none`
on success, `some msg` for `str(error)`.  (The `none` fallbacks for a
missing key or failed build are dead under the hypotheses of the
theorems that use this.) -/
def createOut (tz : String) (sink : Sink) (wps : List (Int × ParsedWP))
    (k : Int) : Option String :=
  match dlookup k wps with
  | none => none
  | some wp =>
    match wp_to_event tz wp with
    | Except.error _ => none
    | Except.ok ev => sink (SinkCall.create ev)

/-- The value the delete phase appends for id `k`. -/
def deleteOut (sink : Sink) (evs : List (Int × ParsedEvent)) (k : Int) :
    Option String :=
  match dlookup k evs with
  | none => none
  | some pe => sink (SinkCall.delete pe.event_id)

/-- The value the update phase appends for id `k`: `none` for the
equal-timestamp no-op, otherwise the caught sink outcome of the update
call. -/
def updateOut (tz : String) (sink : Sink) (wps : List (Int × ParsedWP))
    (evs : List (Int × ParsedEvent)) (k : Int) : Option String :=
  match dlookup k wps, dlookup k evs with
  | some wp, some pe =>
    if wp.updated_at = pe.updated_at then none
    else
      match wp_to_event tz wp with
      | Except.error _ => none
      | Except.ok ev => sink (SinkCall.update pe.event_id ev)
  | _, _ => none

/-- In a phase loop that completed, the `i`-th recorded entry is the
`ok`-outcome of the `i`-th id's action. -/
theorem runPhase_ok_get {f : Int → List SinkCall × Except String (Option String)}
    {ks : List Int} {es : List (Option String)}
    (h : (runPhase f ks).2 = Except.ok es) :
    ∀ (i : Nat) (k : Int), ks[i]? = some k →
      ∃ o, es[i]? = some o ∧ (f k).2 = Except.ok o := by
  induction ks generalizing es with
  | nil => intro i k hk; simp at hk
  | cons k0 rest ih =>
    intro i k hk
    simp only [runPhase] at h
    rcases hf : f k0 with ⟨cs, r⟩
    rw [hf] at h
    cases r with
    | error e => simp at h
    | ok o =>
      rcases hr : runPhase f rest with ⟨cs', r'⟩
      rw [hr] at h
      cases r' with
      | error e => simp [Except.map] at h
      | ok es' =>
        simp [Except.map] at h
        subst h
        cases i with
        | zero =>
          simp at hk
          subst hk
          refine ⟨o, ?_, ?_⟩
          · simp
          · rw [hf]
        | succ j =>
          simp at hk
          obtain ⟨o', ho', hfo'⟩ := @ih es' (by rw [hr]) j k hk
          refine ⟨o', ?_, hfo'⟩
          simpa using ho'

/-! ## Claim C4: conditional update -/

/-- A parsed task with a malformed `due_hour` (as C6 shows normalization
can produce). -/
def wpC4bad : ParsedWP := ⟨9, "s", "d", "p", "a", "2024-03-01", "bad", "u"⟩

/-- The same task with a well-formed `due_hour`. -/
def wpC4good : ParsedWP := ⟨9, "s", "d", "p", "a", "2024-03-01", "08:15:00", "u"⟩

/-- The payload built for `wpC4good`. -/
def evC4good : GEvent :=
  ⟨"9:s", "dParent=p\na\nu", "2024-03-01T08:15:00+00:00",
   "2024-03-01T09:15:00+00:00", ⟨false, [("popup", 1440), ("popup", 30)]⟩⟩

/-- A parsed event sharing id 9 with the tasks above, with a different
`updated_at`. -/
def peC4demo : ParsedEvent := ⟨"e1", "9", "s", "a", "u2", "x", "y"⟩

/-- C4 counterexample: timestamps differ, yet NO update call is made —
rebuilding the payload raises (malformed due hour) before the `try`
block, so `may_update` makes zero sink calls and the exception escapes,
falsifying "if unequal, exactly one update call is made". -/
theorem C4_counterexample_build_aborts :
    wpC4bad.updated_at ≠ peC4demo.updated_at ∧
    may_update "+00:00" (fun _ => none) wpC4bad peC4demo =
      ([], Except.error "ValueError: invalid literal for int() with base 10: bad") :=
  ⟨by decide, rfl⟩

/-- C4 amended: when the task's payload can be rebuilt, equal
`updated_at` strings mean no sink call at all, and unequal strings mean
exactly one update call, addressed to the event's `event_id` with the
payload freshly rebuilt from the task. -/
theorem C4_amended_conditional_update (tz : String) (sink : Sink)
    (wp : ParsedWP) (pe : ParsedEvent) (ev : GEvent)
    (h : wp_to_event tz wp = Except.ok ev) :
    may_update tz sink wp pe =
      if wp.updated_at = pe.updated_at then ([], Except.ok none)
      else ([SinkCall.update pe.event_id ev],
            Except.ok (sink (SinkCall.update pe.event_id ev))) := by
  by_cases hu : wp.updated_at = pe.updated_at
  · simp [may_update, hu]
  · simp [may_update, hu, h]

/-- C4 amended, witnessed: one update call for `wpC4good` against
`peC4demo` (unequal timestamps). -/
theorem C4_amended_conditional_update_witness :
    may_update "+00:00" (fun _ => none) wpC4good peC4demo =
      ([SinkCall.update "e1" evC4good], Except.ok none) := by
  rw [C4_amended_conditional_update "+00:00" (fun _ => none) wpC4good peC4demo
    evC4good rfl]
  rfl

/-! ## Claim C2: failure isolation in the create phase -/

/-- A task whose payload cannot be built (malformed due hour). -/
def wpC2bad : ParsedWP := ⟨1, "s", "d", "p", "a", "2024-03-01", "bad", "u"⟩

/-- A task whose payload builds fine. -/
def wpC2good : ParsedWP := ⟨2, "s2", "d2", "p2", "a2", "2024-03-01", "08:00:00", "u2"⟩

/-- The payload built for `wpC2good`. -/
def evC2good : GEvent :=
  ⟨"2:s2", "d2Parent=p2\na2\nu2", "2024-03-01T08:00:00+00:00",
   "2024-03-01T09:00:00+00:00", ⟨false, [("popup", 1440), ("popup", 30)]⟩⟩

/-- C2 counterexample: with two ids to create and a sink that never
fails, a payload-build failure on the first id aborts the whole run —
no sink call is ever made (the trace is empty), nothing is recorded
against the failing id (no error lists are returned at all), and the
second id is never attempted. -/
theorem C2_counterexample_build_aborts_batch :
    to_create_list [(1, wpC2bad), (2, wpC2good)] [] = [1, 2] ∧
    synchronize_wps "+00:00" [(1, wpC2bad), (2, wpC2good)] [] (fun _ => none) =
      ([], Except.error "ValueError: invalid literal for int() with base 10: bad") :=
  ⟨rfl, rfl⟩

/-- C2 amended: provided every task's payload builds, the run returns
normally whatever the sink answers: each phase's error list records,
id by id, the caught sink outcome (`none` for success, the error string
for a failure) — so a sink `create` failure for one id is recorded
against that id and never blocks the other ids. -/
theorem C2_amended_sink_failures_isolated (tz : String) (sink : Sink)
    (wps : List (Int × ParsedWP)) (evs : List (Int × ParsedEvent))
    (hbuild : ∀ p ∈ wps, ∃ ev, wp_to_event tz p.2 = Except.ok ev) :
    (synchronize_wps tz wps evs sink).2 =
      Except.ok ((to_create_list wps evs, to_delete_list wps evs,
          may_update_list wps evs),
        ((to_create_list wps evs).map (createOut tz sink wps),
         (to_delete_list wps evs).map (deleteOut sink evs),
         (may_update_list wps evs).map (updateOut tz sink wps evs))) := by
  have hc : (runPhase (create_entry tz sink wps) (to_create_list wps evs)).2
      = Except.ok ((to_create_list wps evs).map (createOut tz sink wps)) := by
    apply runPhase_ok_of_entries
    intro k hk
    have hkw : k ∈ keyList wps := by
      rw [to_create_list, List.mem_filter] at hk
      exact List.mem_dedup.mp hk.1
    obtain ⟨wp, hwp⟩ := exists_dlookup_of_mem_keyList hkw
    obtain ⟨ev, hev⟩ := hbuild (k, wp) (dlookup_mem hwp)
    simp [create_entry, hwp, to_create, hev, createOut]
  have hd : (runPhase (delete_entry sink evs) (to_delete_list wps evs)).2
      = Except.ok ((to_delete_list wps evs).map (deleteOut sink evs)) := by
    apply runPhase_ok_of_entries
    intro k hk
    have hke : k ∈ keyList evs := by
      rw [to_delete_list, List.mem_filter] at hk
      exact List.mem_dedup.mp hk.1
    obtain ⟨pe, hpe⟩ := exists_dlookup_of_mem_keyList hke
    simp [delete_entry, hpe, to_delete, deleteOut]
  have hu : (runPhase (update_entry tz sink wps evs) (may_update_list wps evs)).2
      = Except.ok ((may_update_list wps evs).map (updateOut tz sink wps evs)) := by
    apply runPhase_ok_of_entries
    intro k hk
    rw [may_update_list, List.mem_filter] at hk
    have hke : k ∈ keyList evs := List.mem_dedup.mp hk.1
    have hkw : k ∈ keyList wps := by simpa using hk.2
    obtain ⟨wp, hwp⟩ := exists_dlookup_of_mem_keyList hkw
    obtain ⟨pe, hpe⟩ := exists_dlookup_of_mem_keyList hke
    obtain ⟨ev, hev⟩ := hbuild (k, wp) (dlookup_mem hwp)
    by_cases hupd : wp.updated_at = pe.updated_at
    · simp [update_entry, hwp, hpe, may_update, hupd, updateOut]
    · simp [update_entry, hwp, hpe, may_update, hupd, hev, updateOut]
  unfold synchronize_wps
  rcases h1 : runPhase (create_entry tz sink wps) (to_create_list wps evs)
    with ⟨cs, r1⟩
  rw [h1] at hc
  simp only at hc
  subst hc
  rcases h2 : runPhase (delete_entry sink evs) (to_delete_list wps evs)
    with ⟨ds, r2⟩
  rw [h2] at hd
  simp only at hd
  subst hd
  rcases h3 : runPhase (update_entry tz sink wps evs) (may_update_list wps evs)
    with ⟨us, r3⟩
  rw [h3] at hu
  simp only at hu
  subst hu
  rfl

/-- C2 amended, witnessed: two creatable tasks, a sink that fails the
first create and accepts the second — the run completes, the first id's
error string is recorded in position 0, the second id's success (`none`)
in position 1. -/
theorem C2_amended_sink_failures_isolated_witness :
    (synchronize_wps "+00:00"
        [(1, wpC4good), (2, wpC2good)] []
        (fun c => if c = SinkCall.create evC2good then none else some "boom")).2 =
      Except.ok (([1, 2], [], []), ([some "boom", none], [], [])) := by
  have h := C2_amended_sink_failures_isolated "+00:00"
    (fun c => if c = SinkCall.create evC2good then none else some "boom")
    [(1, wpC4good), (2, wpC2good)] []
    (by
      intro p hp
      rcases List.mem_cons.mp hp with rfl | hp'
      · exact ⟨evC4good, rfl⟩
      · rcases List.mem_cons.mp hp' with rfl | hp''
        · exact ⟨evC2good, rfl⟩
        · simp at hp'')
  rw [h]
  rfl

/-! ## Claim C10: error lists align with the iterated id sets -/

/-- C10: a run that returns normally reports the three iterated id
lists verbatim, its three error lists have exactly one entry per
iterated id (length = cardinality of the corresponding set), the `i`-th
entry being the `ok`-outcome of the `i`-th id's action (`none` for a
success, the error's string form for a caught sink failure — successes
are not omitted); and an equal-timestamp pair yields the no-op outcome
`none` with no sink call. -/
theorem C10_one_entry_per_id (tz : String) (sink : Sink)
    (wps : List (Int × ParsedWP)) (evs : List (Int × ParsedEvent))
    (calls : List SinkCall)
    (r : (List Int × List Int × List Int) ×
      (List (Option String) × List (Option String) × List (Option String)))
    (h : synchronize_wps tz wps evs sink = (calls, Except.ok r)) :
    r.1 = (to_create_list wps evs, to_delete_list wps evs, may_update_list wps evs) ∧
    r.2.1.length = (to_create_set wps evs).card ∧
    r.2.2.1.length = (to_delete_set wps evs).card ∧
    r.2.2.2.length = (may_update_set wps evs).card ∧
    (∀ (i : Nat) (k : Int), (to_create_list wps evs)[i]? = some k →
      ∃ o, r.2.1[i]? = some o ∧ (create_entry tz sink wps k).2 = Except.ok o) ∧
    (∀ (i : Nat) (k : Int), (to_delete_list wps evs)[i]? = some k →
      ∃ o, r.2.2.1[i]? = some o ∧ (delete_entry sink evs k).2 = Except.ok o) ∧
    (∀ (i : Nat) (k : Int), (may_update_list wps evs)[i]? = some k →
      ∃ o, r.2.2.2[i]? = some o ∧ (update_entry tz sink wps evs k).2 = Except.ok o) ∧
    (∀ (k : Int) (wp : ParsedWP) (pe : ParsedEvent), dlookup k wps = some wp →
      dlookup k evs = some pe → wp.updated_at = pe.updated_at →
      may_update tz sink wp pe = ([], Except.ok none)) := by
  unfold synchronize_wps at h
  rcases h1 : runPhase (create_entry tz sink wps) (to_create_list wps evs)
    with ⟨cs, r1⟩
  rw [h1] at h
  cases r1 with
  | error e => simp at h
  | ok ce =>
    rcases h2 : runPhase (delete_entry sink evs) (to_delete_list wps evs)
      with ⟨ds, r2⟩
    rw [h2] at h
    cases r2 with
    | error e => simp at h
    | ok de =>
      rcases h3 : runPhase (update_entry tz sink wps evs) (may_update_list wps evs)
        with ⟨us, r3⟩
      rw [h3] at h
      cases r3 with
      | error e => simp at h
      | ok ue =>
        simp only [Prod.mk.injEq, Except.ok.injEq] at h
        obtain ⟨-, hr⟩ := h
        subst hr
        refine ⟨rfl, ?_, ?_, ?_, ?_, ?_, ?_, ?_⟩
        · rw [runPhase_ok_length (by rw [h1]), to_create_list_length]
        · rw [runPhase_ok_length (by rw [h2]), to_delete_list_length]
        · rw [runPhase_ok_length (by rw [h3]), may_update_list_length]
        · exact runPhase_ok_get (by rw [h1])
        · exact runPhase_ok_get (by rw [h2])
        · exact runPhase_ok_get (by rw [h3])
        · intro k wp pe _ _ hupd
          simp [may_update, hupd]

/-- C10, witnessed on a one-create / one-delete run: both error lists
have length 1 (the cardinality of their id sets). -/
theorem C10_one_entry_per_id_witness :
    ((([2], [1], []), ([none], [none], [])) :
      (List Int × List Int × List Int) ×
        (List (Option String) × List (Option String) ×
          List (Option String))).2.1.length =
      (to_create_set [(2, wpC2good)] [(1, peC5demo)]).card :=
  (C10_one_entry_per_id "+00:00" (fun _ => none)
    [(2, wpC2good)] [(1, peC5demo)]
    [SinkCall.create evC2good, SinkCall.delete "ev1"]
    (([2], [1], []), ([none], [none], [])) rfl).2.1

/-! ## Claim C1: the round trip `parse_events ∘ wp_to_event` -/

theorem T_not_mem_dateChars (t : PyDateTime) : 'T' ∉ dateChars t := by
  intro h
  simp only [dateChars, pad4, pad2, List.mem_append, List.mem_cons,
    List.not_mem_nil, or_false] at h
  rcases h with ((h | h | h | h) | h | h | h) | h | h | h <;>
    first
      | exact absurd h (by decide)
      | exact digitChar_ne_T (Nat.mod_lt _ (by omega)) h.symm

theorem T_not_mem_timeChars (t : PyDateTime) : 'T' ∉ timeChars t := by
  intro h
  simp only [timeChars, pad2, List.mem_append, List.mem_cons,
    List.not_mem_nil, or_false] at h
  rcases h with ((h | h) | h | h | h) | h | h | h <;>
    first
      | exact absurd h (by decide)
      | exact digitChar_ne_T (Nat.mod_lt _ (by omega)) h.symm

theorem colon_not_mem_pyStr (i : Int) : ':' ∉ (pyStr i).data := by
  intro h
  unfold pyStr at h
  split at h
  · obtain ⟨k, hk, he⟩ :=
      mem_natRepr (show ':' ∈ natRepr i.natAbs by simpa using h)
    exact digitChar_ne_colon hk he.symm
  · obtain ⟨k, hk, he⟩ :=
      mem_natRepr (show ':' ∈ natRepr i.natAbs by simpa using h)
    exact digitChar_ne_colon hk he.symm

/-- The normalized work package used for the C1 round trip. -/
def wpC1demo : ParsedWP :=
  ⟨7, "Write report", "<p>Draft</p>", "No parent", "Alice",
   "2024-03-01", "08:15:00", "u7"⟩

/-- The payload `wp_to_event` builds for `wpC1demo` at offset `+00:00`:
note the end timestamp is one hour past the due time. -/
def evC1demo : GEvent :=
  ⟨"7:Write report", "<p>Draft</p>Parent=No parent\nAlice\nu7",
   "2024-03-01T08:15:00+00:00", "2024-03-01T09:15:00+00:00",
   ⟨false, [("popup", 1440), ("popup", 30)]⟩⟩

/-- What `parse_events` recovers from the stored payload. -/
def peC1demo : ParsedEvent :=
  ⟨"gid", "7", "Write report", "Alice", "u7", "2024-03-01", "09:15:00+00:00"⟩

/-- C1 counterexample: the round trip recovers the key, subject,
assignee and `updated_at`, but the `due_hour` read back from the
event's end timestamp is `"09:15:00+00:00"` — the due time plus one
hour, carrying the UTC-offset suffix — which differs from the task's
`"08:15:00"`. -/
theorem C1_counterexample_due_hour_shifted :
    wp_to_event "+00:00" wpC1demo = Except.ok evC1demo ∧
    parse_events [event_payload_as_raw "gid" evC1demo] = ([(7, peC1demo)], []) ∧
    peC1demo.due_hour ≠ wpC1demo.due_hour :=
  ⟨rfl, rfl, by decide⟩

/-- C1 amended: feeding the stored payload back through `parse_events`
yields one record, keyed by the task's integer id, whose `wp_id` string
is the id's decimal form and whose subject, assignee and `updated_at`
equal the task's (given that the subject contains no `':'` and the
assignee/`updated_at` no newline); but the recovered `due_date` and
`due_hour` are the date and time-of-day of the event END — the due time
plus one hour — with the local UTC-offset suffix appended to
`due_hour`, not the task's due fields. -/
theorem C1_amended_roundtrip (tz eid : String) (wp : ParsedWP) (ev : GEvent)
    (start fin : PyDateTime)
    (hev : wp_to_event tz wp = Except.ok ev)
    (hs : str_to_date wp.due_date wp.due_hour = Except.ok start)
    (hf : addHour start = some fin)
    (hsubj : ':' ∉ wp.subject.data)
    (hassign : '\n' ∉ wp.assignee.data)
    (hupd : '\n' ∉ wp.updated_at.data)
    (htz : 'T' ∉ tz.data) :
    parse_events [event_payload_as_raw eid ev] =
      ([(wp.wp_id,
        { event_id := eid
          wp_id := pyStr wp.wp_id
          subject := wp.subject
          assignee := wp.assignee
          updated_at := wp.updated_at
          due_date := String.mk (dateChars fin)
          due_hour := String.mk (timeChars fin ++ tz.data) })], []) := by
  rw [wp_to_event_eq tz hs hf] at hev
  injection hev with hev
  subst hev
  have hB : (wp.description ++ "Parent=" ++ wp.parent ++ "\n" ++ wp.assignee
      ++ "\n" ++ wp.updated_at).data =
      (wp.description ++ "Parent=" ++ wp.parent).data
        ++ '\n' :: (wp.assignee.data ++ '\n' :: wp.updated_at.data) := by
    simp [String.data_append]
  have hsplitB : pySplit '\n' (wp.description ++ "Parent=" ++ wp.parent ++ "\n"
      ++ wp.assignee ++ "\n" ++ wp.updated_at) =
      (splitCh '\n' (wp.description ++ "Parent=" ++ wp.parent).data).map String.mk
        ++ [wp.assignee, wp.updated_at] := by
    rw [pySplit, hB, splitCh_append_sep, splitCh_two hassign hupd, List.map_append]
    rfl
  have h1 : pyIndexFromEnd (pySplit '\n' (wp.description ++ "Parent=" ++ wp.parent
      ++ "\n" ++ wp.assignee ++ "\n" ++ wp.updated_at)) 2 =
      Except.ok wp.assignee := by
    rw [hsplitB]
    exact pyIndexFromEnd_append_two _ _ _
  have h2 : (pySplit '\n' (wp.description ++ "Parent=" ++ wp.parent ++ "\n"
      ++ wp.assignee ++ "\n" ++ wp.updated_at)).getLastD "" = wp.updated_at := by
    rw [hsplitB]
    exact getLastD_append_two _ _ _ _
  have hTtime : 'T' ∉ timeChars fin ++ tz.data := by
    intro h
    rcases List.mem_append.mp h with h | h
    · exact T_not_mem_timeChars fin h
    · exact htz h
  have hsplitE : pySplit 'T' (isoformat tz fin) =
      [String.mk (dateChars fin), String.mk (timeChars fin ++ tz.data)] := by
    rw [pySplit,
      show (isoformat tz fin).data =
        dateChars fin ++ 'T' :: (timeChars fin ++ tz.data) from rfl,
      splitCh_two (T_not_mem_dateChars fin) hTtime]
    rfl
  have h3 : pyIndex (pySplit 'T' (isoformat tz fin)) 1 =
      Except.ok (String.mk (timeChars fin ++ tz.data)) := by
    rw [hsplitE]; rfl
  have h4 : (pySplit 'T' (isoformat tz fin)).headD "" = String.mk (dateChars fin) := by
    rw [hsplitE]; rfl
  have hsplitS : pySplit ':' (pyStr wp.wp_id ++ ":" ++ wp.subject) =
      [pyStr wp.wp_id, wp.subject] := by
    rw [pySplit,
      show (pyStr wp.wp_id ++ ":" ++ wp.subject).data =
        (pyStr wp.wp_id).data ++ ':' :: wp.subject.data by simp [String.data_append],
      splitCh_two (colon_not_mem_pyStr wp.wp_id) hsubj]
    rfl
  have h5 : (pySplit ':' (pyStr wp.wp_id ++ ":" ++ wp.subject)).headD "" =
      pyStr wp.wp_id := by
    rw [hsplitS]; rfl
  have h6 : (pySplit ':' (pyStr wp.wp_id ++ ":" ++ wp.subject)).getLastD "" =
      wp.subject := by
    rw [hsplitS]; rfl
  have helem : parse_event_elem (event_payload_as_raw eid
      { summary := pyStr wp.wp_id ++ ":" ++ wp.subject
        description := wp.description ++ "Parent=" ++ wp.parent ++ "\n"
          ++ wp.assignee ++ "\n" ++ wp.updated_at
        start_dateTime := isoformat tz start
        end_dateTime := isoformat tz fin
        reminders := ⟨false, [("popup", 24 * 60), ("popup", 30)]⟩ }) =
      Except.ok (wp.wp_id,
        { event_id := eid
          wp_id := pyStr wp.wp_id
          subject := wp.subject
          assignee := wp.assignee
          updated_at := wp.updated_at
          due_date := String.mk (dateChars fin)
          due_hour := String.mk (timeChars fin ++ tz.data) }) := by
    unfold parse_event_elem event_payload_as_raw
    simp only [h1, h2, h3, h4, h5, h6, pyInt_pyStr]
  rw [parse_events, List.foldl_cons, List.foldl_nil, parse_events_step, helem]
  rfl

/-- C1 amended, witnessed at `wpC1demo`: the record comes back keyed by
7 with subject/assignee/updated_at intact and the end-derived due
fields. -/
theorem C1_amended_roundtrip_witness :
    parse_events [event_payload_as_raw "gid" evC1demo] = ([(7, peC1demo)], []) := by
  rw [C1_amended_roundtrip "+00:00" "gid" wpC1demo evC1demo
    ⟨2024, 3, 1, 8, 15, 0⟩ ⟨2024, 3, 1, 9, 15, 0⟩
    rfl rfl rfl (by decide) (by decide) (by decide) (by decide)]
  rfl

end CalSync
